import Mathlib

/-!
Shallow embedding of the `shadow` pallet of the shadowchain repository.

The repository ships two divergent implementations of the same module:
  * `substrate-node/pallets/shadow/src/lib.rs`  (namespace `Node` below),
  * `parachain/pallets/shadow/src/lib.rs`       (namespace `Para` below).

Modelling conventions:
  * `AccountId`, `T::Hash`, `T::Moment` and block numbers are modelled as `Nat`;
    byte strings (`Vec<u8>`) as `List Nat`.
  * The pallets are generic over the runtime hasher `T::Hashing`; the embedding
    is likewise parametric in a function `hashOf : Nat → Nat → List Nat → Nat`
    standing for `T::Hashing::hash_of(&(&who, nonce, &cid))`.
  * Storage maps (`StorageMap` with `ValueQuery` / `OptionQuery`) are total
    functions from accounts to the value type (with the query default) resp.
    to `Option` of it.
  * A dispatchable returning `DispatchResult` is embedded as an
    `Except Error …` value; an `Err` result carries no state because the
    enclosing runtime rolls back a failed dispatch, and inside the bodies
    every storage write happens only after all validation succeeded.
  * Event deposition (`deposit_event`) is not modelled; no claim quantifies
    over events.
-/

/-- Content source enumeration of the substrate-node variant
(`pub enum ContentSource { GitHub, Twitter }`). -/
inductive ContentSource
  | GitHub
  | Twitter
deriving DecidableEq

/-- Boolean test for an `Except` value being `ok`. -/
def exceptIsOk {ε α : Type} : Except ε α → Bool
  | .ok _ => true
  | .error _ => false

namespace Node

/-- Pallet configuration constants of the substrate-node variant
(`MaxCidLength`, `MaxKeyLength`, `MaxMetadataLength`, `MaxItemsPerAccount`,
all `Get<u32>`). -/
structure Config where
  MaxCidLength : Nat
  MaxKeyLength : Nat
  MaxMetadataLength : Nat
  MaxItemsPerAccount : Nat

/-- A shadow item stored on-chain (substrate-node variant, `struct ShadowItem`). -/
structure ShadowItem where
  id : Nat
  cid : List Nat
  encrypted_key : List Nat
  timestamp : Nat
  source : ContentSource
  metadata : List Nat
  deleted : Bool
deriving DecidableEq

/-- Consent record (substrate-node variant, `struct ConsentRecord`); the
`message_hash` field is a `T::Hash`, modelled as `Nat`. -/
structure ConsentRecord where
  granted_at : Nat
  expires_at : Option Nat
  message_hash : Nat
deriving DecidableEq

/-- The pallet's storage: `ShadowItems` (`ValueQuery`, default empty vector),
`ConsentRecords` (`OptionQuery`) and `ItemCount` (`ValueQuery`, default 0). -/
structure State where
  ShadowItems : Nat → List ShadowItem
  ConsentRecords : Nat → Option ConsentRecord
  ItemCount : Nat → Nat

/-- Genesis state: all storage maps empty. -/
def initState : State :=
  { ShadowItems := fun _ => []
    ConsentRecords := fun _ => none
    ItemCount := fun _ => 0 }

/-- Error enum of the substrate-node variant. It has no `NoConsent` and no
`InvalidSource` member. -/
inductive Error
  | CidTooLong
  | KeyTooLong
  | MetadataTooLong
  | TooManyItems
  | ItemNotFound
  | ConsentNotFound
  | ConsentExpired
deriving DecidableEq

/-- Saturating increment on a `u32` counter
(`count.saturating_add(1)` with `count : u32`). -/
def satAdd1 (c : Nat) : Nat := min (c + 1) (2 ^ 32 - 1)

/-- Dispatchable `submit_shadow_item` of the substrate-node variant.
Validates the three byte-string bounds (`BoundedVec::try_into`, in the order
cid, key, metadata), derives `id = T::Hashing::hash_of(&(&who, nonce,
&cid_bounded))` where `nonce = ItemCount::get(&who)`, pushes the new item
(`try_push`, failing `TooManyItems` when the vector is full), then increments
`ItemCount` with a saturating add.  Note: this variant performs no consent
check whatsoever. -/
def submit_shadow_item (cfg : Config) (hashOf : Nat → Nat → List Nat → Nat)
    (s : State) (who : Nat) (cid encrypted_key : List Nat)
    (source : ContentSource) (metadata : List Nat) (now : Nat) :
    Except Error (State × Nat) :=
  if cfg.MaxCidLength < cid.length then .error .CidTooLong
  else if cfg.MaxKeyLength < encrypted_key.length then .error .KeyTooLong
  else if cfg.MaxMetadataLength < metadata.length then .error .MetadataTooLong
  else
    let nonce := s.ItemCount who
    let id := hashOf who nonce cid
    let item : ShadowItem :=
      { id := id, cid := cid, encrypted_key := encrypted_key,
        timestamp := now, source := source, metadata := metadata,
        deleted := false }
    let items := s.ShadowItems who
    if items.length < cfg.MaxItemsPerAccount then
      .ok
        ({ s with
            ShadowItems := fun a => if a = who then items ++ [item] else s.ShadowItems a
            ItemCount := fun a => if a = who then satAdd1 (s.ItemCount a) else s.ItemCount a },
          id)
    else .error .TooManyItems

/-- Helper embedding `items.iter_mut().find(|i| i.id == item_id)` followed by
`item.deleted = true`: marks the first entry with the given id as deleted,
returning `none` when no entry matches. -/
def markDeleted : List ShadowItem → Nat → Option (List ShadowItem)
  | [], _ => none
  | i :: rest, itemId =>
    if i.id = itemId then some ({ i with deleted := true } :: rest)
    else (markDeleted rest itemId).map (i :: ·)

/-- Dispatchable `delete_shadow_item` of the substrate-node variant: finds the
first item with the matching id in the caller's ledger and sets its `deleted`
flag, failing `ItemNotFound` when no entry matches. -/
def delete_shadow_item (s : State) (who itemId : Nat) : Except Error State :=
  match markDeleted (s.ShadowItems who) itemId with
  | none => .error .ItemNotFound
  | some items =>
      .ok { s with ShadowItems := fun a => if a = who then items else s.ShadowItems a }

/-- Dispatchable `grant_consent` of the substrate-node variant.  `message_hash`
is a fixed-width `T::Hash`, so the call always succeeds: it computes
`expires_at = expires_in.map(|d| now.saturating_add(d))` (plain addition on the
unbounded `Nat` model of `Moment`) and unconditionally overwrites the record. -/
def grant_consent (s : State) (who message_hash : Nat)
    (expires_in : Option Nat) (now : Nat) : State :=
  let expires_at := expires_in.map (fun d => now + d)
  { s with
      ConsentRecords := fun a =>
        if a = who then
          some { granted_at := now, expires_at := expires_at, message_hash := message_hash }
        else s.ConsentRecords a }

/-- Dispatchable `revoke_consent` of the substrate-node variant:
`ConsentRecords::take(&who).ok_or(ConsentNotFound)?`. -/
def revoke_consent (s : State) (who : Nat) : Except Error State :=
  match s.ConsentRecords who with
  | none => .error .ConsentNotFound
  | some _ =>
      .ok { s with ConsentRecords := fun a => if a = who then none else s.ConsentRecords a }

/-- Helper `has_valid_consent` of the substrate-node variant: `true` iff a
record exists and is unexpired (`T::Time::now() <= expires_at`; a record with
no `expires_at` never expires). -/
def has_valid_consent (s : State) (account now : Nat) : Bool :=
  match s.ConsentRecords account with
  | none => false
  | some consent =>
    match consent.expires_at with
    | none => true
    | some expires_at => decide (now ≤ expires_at)

/-- Helper `get_active_items` of the substrate-node variant: the caller's
ledger filtered to the non-deleted entries, in storage order. -/
def get_active_items (s : State) (account : Nat) : List ShadowItem :=
  (s.ShadowItems account).filter (fun item => !item.deleted)

/-- One dispatchable call of the substrate-node pallet together with its
arguments, the signed caller, and the moment `T::Time::now()` the enclosing
runtime supplies for the call. -/
inductive Command
  | submit (who : Nat) (cid encrypted_key : List Nat) (source : ContentSource)
      (metadata : List Nat) (now : Nat)
  | delete (who itemId : Nat)
  | grant (who message_hash : Nat) (expires_in : Option Nat) (now : Nat)
  | revoke (who : Nat)

/-- The signed origin of a command. -/
def Command.caller : Command → Nat
  | .submit who _ _ _ _ _ => who
  | .delete who _ => who
  | .grant who _ _ _ => who
  | .revoke who => who

/-- Dispatch one command: on success the new state, on error the old state
(the enclosing runtime rolls a failed dispatch back). -/
def apply (cfg : Config) (hashOf : Nat → Nat → List Nat → Nat)
    (c : Command) (s : State) : State :=
  match c with
  | .submit who cid key src md now =>
    match submit_shadow_item cfg hashOf s who cid key src md now with
    | .ok (s', _) => s'
    | .error _ => s
  | .delete who itemId =>
    match delete_shadow_item s who itemId with
    | .ok s' => s'
    | .error _ => s
  | .grant who mh d now => grant_consent s who mh d now
  | .revoke who =>
    match revoke_consent s who with
    | .ok s' => s'
    | .error _ => s

/-- The state reached from genesis by a sequence of dispatched commands. -/
def run (cfg : Config) (hashOf : Nat → Nat → List Nat → Nat)
    (cs : List Command) : State :=
  cs.foldl (fun s c => apply cfg hashOf c s) initState

end Node

namespace Para

/-- Pallet configuration constants of the parachain variant (all `Get<u32>`). -/
structure Config where
  MaxItemsPerAccount : Nat
  MaxCidLength : Nat
  MaxKeyLength : Nat
  MaxMetadataLength : Nat
  MaxMessageHashLength : Nat

/-- A shadow item stored on-chain (parachain variant): `id : [u8; 32]` is
modelled as `Nat` (the hash value), `source : u8` as `Nat`, and there is no
`deleted` flag — this variant deletes physically. -/
structure ShadowItem where
  id : Nat
  cid : List Nat
  encrypted_key : List Nat
  timestamp : Nat
  source : Nat
  metadata : List Nat
deriving DecidableEq

/-- Consent record of the parachain variant; `message_hash` is a
`BoundedVec<u8, MaxMessageHashLength>`, modelled as the byte list. -/
structure ConsentRecord where
  granted_at : Nat
  expires_at : Option Nat
  message_hash : List Nat
deriving DecidableEq

/-- Storage of the parachain variant, plus the frame-system account nonce that
`submit_shadow_item` reads (`frame_system::Pallet::<T>::account_nonce`); the
pallet itself never writes the nonce. -/
structure State where
  ShadowItems : Nat → List ShadowItem
  ConsentRecords : Nat → Option ConsentRecord
  accountNonce : Nat → Nat

/-- Genesis state of the parachain variant. -/
def initState : State :=
  { ShadowItems := fun _ => []
    ConsentRecords := fun _ => none
    accountNonce := fun _ => 0 }

/-- Error enum of the parachain variant.  It has `NoConsent` and
`InvalidSource` but no `ConsentNotFound`.  The extra member
`MessageHashTooLong` embeds the non-pallet error
`DispatchError::Other("Message hash too long")` raised by `grant_consent`. -/
inductive Error
  | CidTooLong
  | KeyTooLong
  | MetadataTooLong
  | TooManyItems
  | ItemNotFound
  | InvalidSource
  | NoConsent
  | ConsentExpired
  | MessageHashTooLong
deriving DecidableEq

/-- Helper `ensure_valid_consent` of the parachain variant: `NoConsent` when no
record exists; `ConsentExpired` when `expires_at` is set and
`current_block > expires_at`; otherwise ok. -/
def ensure_valid_consent (s : State) (account current_block : Nat) :
    Except Error Unit :=
  match s.ConsentRecords account with
  | none => .error .NoConsent
  | some consent =>
    match consent.expires_at with
    | none => .ok ()
    | some expires_at =>
      if current_block ≤ expires_at then .ok () else .error .ConsentExpired

/-- Dispatchable `submit_shadow_item` of the parachain variant.  Order of
operations in the source: consent check, the four `ensure!` validations (cid,
key, metadata lengths, then `source <= 1`), id derivation from
`(who, account_nonce(who), cid)`, the three `BoundedVec::try_from` conversions
(re-checking the same bounds already ensured, hence dead error paths kept here
verbatim), then `try_push` (`TooManyItems` when full).  The conversion of the
32-byte hash output into `[u8; 32]` always succeeds and is modelled as the
identity. -/
def submit_shadow_item (cfg : Config) (hashOf : Nat → Nat → List Nat → Nat)
    (s : State) (who : Nat) (cid encrypted_key : List Nat)
    (source : Nat) (metadata : List Nat) (current_block : Nat) :
    Except Error (State × Nat) :=
  match ensure_valid_consent s who current_block with
  | .error e => .error e
  | .ok _ =>
    if cfg.MaxCidLength < cid.length then .error .CidTooLong
    else if cfg.MaxKeyLength < encrypted_key.length then .error .KeyTooLong
    else if cfg.MaxMetadataLength < metadata.length then .error .MetadataTooLong
    else if 1 < source then .error .InvalidSource
    else
      let nonce := s.accountNonce who
      let item_id := hashOf who nonce cid
      if cfg.MaxCidLength < cid.length then .error .CidTooLong
      else if cfg.MaxKeyLength < encrypted_key.length then .error .KeyTooLong
      else if cfg.MaxMetadataLength < metadata.length then .error .MetadataTooLong
      else
        let item : ShadowItem :=
          { id := item_id, cid := cid, encrypted_key := encrypted_key,
            timestamp := current_block, source := source, metadata := metadata }
        let items := s.ShadowItems who
        if items.length < cfg.MaxItemsPerAccount then
          .ok
            ({ s with
                ShadowItems := fun a => if a = who then items ++ [item] else s.ShadowItems a },
              item_id)
        else .error .TooManyItems

/-- Dispatchable `delete_shadow_item` of the parachain variant: physically
removes every item of the caller whose id equals `item_id`
(`items.retain(|item| stored_id != item_id)`) and always returns `Ok` — it
never raises `ItemNotFound`. -/
def delete_shadow_item (s : State) (who itemId : Nat) : Except Error State :=
  .ok { s with
          ShadowItems := fun a =>
            if a = who then (s.ShadowItems a).filter (fun item => item.id != itemId)
            else s.ShadowItems a }

/-- Dispatchable `grant_consent` of the parachain variant: computes
`expires_at = duration.map(|d| current_block + d)`, converts the message hash
into its bounded vector (failing with the `Other` dispatch error when too
long), then unconditionally overwrites the record. -/
def grant_consent (cfg : Config) (s : State) (who : Nat)
    (message_hash : List Nat) (duration : Option Nat) (current_block : Nat) :
    Except Error State :=
  let expires_at := duration.map (fun d => current_block + d)
  if cfg.MaxMessageHashLength < message_hash.length then .error .MessageHashTooLong
  else
    .ok { s with
            ConsentRecords := fun a =>
              if a = who then
                some { granted_at := current_block, expires_at := expires_at,
                       message_hash := message_hash }
              else s.ConsentRecords a }

/-- Dispatchable `revoke_consent` of the parachain variant:
`ConsentRecords::remove(&who)` and always `Ok` — a missing record is treated
as success. -/
def revoke_consent (s : State) (who : Nat) : Except Error State :=
  .ok { s with ConsentRecords := fun a => if a = who then none else s.ConsentRecords a }

/-- One dispatchable call of the parachain pallet with the block number the
runtime supplies for the call. -/
inductive Command
  | submit (who : Nat) (cid encrypted_key : List Nat) (source : Nat)
      (metadata : List Nat) (current_block : Nat)
  | delete (who itemId : Nat)
  | grant (who : Nat) (message_hash : List Nat) (duration : Option Nat)
      (current_block : Nat)
  | revoke (who : Nat)

/-- The signed origin of a parachain command. -/
def Command.caller : Command → Nat
  | .submit who _ _ _ _ _ => who
  | .delete who _ => who
  | .grant who _ _ _ => who
  | .revoke who => who

/-- True exactly on a `grant_consent` call signed by `who`. -/
def Command.isGrantBy (who : Nat) : Command → Bool
  | .grant w _ _ _ => w == who
  | _ => false

/-- Dispatch one parachain command, keeping the old state on error. -/
def apply (cfg : Config) (hashOf : Nat → Nat → List Nat → Nat)
    (c : Command) (s : State) : State :=
  match c with
  | .submit who cid key src md blk =>
    match submit_shadow_item cfg hashOf s who cid key src md blk with
    | .ok (s', _) => s'
    | .error _ => s
  | .delete who itemId =>
    match delete_shadow_item s who itemId with
    | .ok s' => s'
    | .error _ => s
  | .grant who mh d blk =>
    match grant_consent cfg s who mh d blk with
    | .ok s' => s'
    | .error _ => s
  | .revoke who =>
    match revoke_consent s who with
    | .ok s' => s'
    | .error _ => s

/-- The parachain state reached from genesis by a sequence of commands. -/
def run (cfg : Config) (hashOf : Nat → Nat → List Nat → Nat)
    (cs : List Command) : State :=
  cs.foldl (fun s c => apply cfg hashOf c s) initState

/-- Modelled from the spec: the per-account sequence counter that
`submit_shadow_item` reads is the frame-system account nonce, and frame-system
(an external collaborator crate, not under the repository sources) bumps it
exactly once for every dispatched signed extrinsic, successful or failed — the
spec calls it a "monotonically increasing integer" (section 3) that "never
decreases" (section 9).  `applyTx` is the signed-extrinsic-level step: the
pallet dispatch `apply` followed by the caller's nonce bump.  (Whether the bump
lands before or after the dispatch only shifts the value the call reads by
one; it never makes two extrinsics read the same value.) -/
def applyTx (cfg : Config) (hashOf : Nat → Nat → List Nat → Nat)
    (c : Command) (s : State) : State :=
  let s' := apply cfg hashOf c s
  { s' with
      accountNonce := fun a =>
        if a = c.caller then s'.accountNonce a + 1 else s'.accountNonce a }

/-- The parachain state reached from genesis by a sequence of signed
extrinsics, each dispatched and followed by its frame-system nonce bump. -/
def runTx (cfg : Config) (hashOf : Nat → Nat → List Nat → Nat)
    (cs : List Command) : State :=
  cs.foldl (fun s c => applyTx cfg hashOf c s) initState

end Para

/-! ### Shared helper lemmas -/

theorem exceptIsOk_ne_error {ε α : Type} {e : Except ε α}
    (h : exceptIsOk e = true) (err : ε) : e ≠ .error err := by
  intro he
  subst he
  simp [exceptIsOk] at h

theorem node_submit_ok_inv {cfg : Node.Config} {hashOf : Nat → Nat → List Nat → Nat}
    {s : Node.State} {who : Nat} {cid key : List Nat} {src : ContentSource}
    {md : List Nat} {now : Nat} {s' : Node.State} {idv : Nat}
    (h : Node.submit_shadow_item cfg hashOf s who cid key src md now = .ok (s', idv)) :
    (s.ShadowItems who).length < cfg.MaxItemsPerAccount ∧
    idv = hashOf who (s.ItemCount who) cid ∧
    s'.ShadowItems who = s.ShadowItems who ++
      [{ id := idv, cid := cid, encrypted_key := key, timestamp := now,
         source := src, metadata := md, deleted := false }] ∧
    (∀ b, b ≠ who → s'.ShadowItems b = s.ShadowItems b) ∧
    s'.ItemCount who = Node.satAdd1 (s.ItemCount who) ∧
    (∀ b, b ≠ who → s'.ItemCount b = s.ItemCount b) ∧
    s'.ConsentRecords = s.ConsentRecords := by
  simp only [Node.submit_shadow_item] at h
  split_ifs at h with h1 h2 h3 h4
  simp only [Except.ok.injEq, Prod.mk.injEq] at h
  obtain ⟨hs, hid⟩ := h
  subst hs
  subst hid
  refine ⟨h4, rfl, by simp, ?_, by simp, ?_, rfl⟩
  · intro b hb
    simp [hb]
  · intro b hb
    simp [hb]

theorem node_submit_error_cases {cfg : Node.Config} {hashOf : Nat → Nat → List Nat → Nat}
    {s : Node.State} {who : Nat} {cid key : List Nat} {src : ContentSource}
    {md : List Nat} {now : Nat} {e : Node.Error}
    (h : Node.submit_shadow_item cfg hashOf s who cid key src md now = .error e) :
    e = .CidTooLong ∨ e = .KeyTooLong ∨ e = .MetadataTooLong ∨ e = .TooManyItems := by
  simp only [Node.submit_shadow_item] at h
  split_ifs at h <;> simp only [Except.error.injEq] at h <;> simp [h]

theorem markDeleted_none_iff (l : List Node.ShadowItem) (i : Nat) :
    Node.markDeleted l i = none ↔ ∀ x ∈ l, x.id ≠ i := by
  induction l with
  | nil => simp [Node.markDeleted]
  | cons hd tl ih =>
    by_cases h0 : hd.id = i
    · simp [Node.markDeleted, h0]
    · simp [Node.markDeleted, h0, Option.map_eq_none', ih]

theorem markDeleted_length {l l' : List Node.ShadowItem} {i : Nat}
    (h : Node.markDeleted l i = some l') : l'.length = l.length := by
  induction l generalizing l' with
  | nil => simp [Node.markDeleted] at h
  | cons hd tl ih =>
    by_cases h0 : hd.id = i
    · simp only [Node.markDeleted, if_pos h0, Option.some.injEq] at h
      subst h
      simp
    · simp only [Node.markDeleted, if_neg h0, Option.map_eq_some'] at h
      obtain ⟨lr, hlr, rfl⟩ := h
      simp [ih hlr]

theorem markDeleted_spec {l l' : List Node.ShadowItem} {i : Nat}
    (h : Node.markDeleted l i = some l') :
    ∃ k, ∃ hk : k < l.length,
      (l.get ⟨k, hk⟩).id = i ∧
      (∀ j, ∀ hj : j < l.length, j < k → (l.get ⟨j, hj⟩).id ≠ i) ∧
      l' = l.set k { l.get ⟨k, hk⟩ with deleted := true } := by
  induction l generalizing l' with
  | nil => simp [Node.markDeleted] at h
  | cons hd tl ih =>
    by_cases h0 : hd.id = i
    · simp only [Node.markDeleted, if_pos h0, Option.some.injEq] at h
      subst h
      exact ⟨0, by simp, h0, by omega, rfl⟩
    · simp only [Node.markDeleted, if_neg h0, Option.map_eq_some'] at h
      obtain ⟨lr, hlr, rfl⟩ := h
      obtain ⟨k, hk, hid, hfirst, hset⟩ := ih hlr
      refine ⟨k + 1, by simpa using hk, by simpa using hid, ?_, by simp [hset]⟩
      intro j hj hjk
      match j with
      | 0 => simpa using h0
      | j' + 1 =>
        have hj' : j' < tl.length := by simpa using hj
        simpa using hfirst j' hj' (by omega)

theorem markDeleted_idem {l l' : List Node.ShadowItem} {i : Nat}
    (h : Node.markDeleted l i = some l') : Node.markDeleted l' i = some l' := by
  induction l generalizing l' with
  | nil => simp [Node.markDeleted] at h
  | cons hd tl ih =>
    by_cases h0 : hd.id = i
    · simp only [Node.markDeleted, if_pos h0, Option.some.injEq] at h
      subst h
      simp [Node.markDeleted, h0]
    · simp only [Node.markDeleted, if_neg h0, Option.map_eq_some'] at h
      obtain ⟨lr, hlr, rfl⟩ := h
      simp [Node.markDeleted, h0, ih hlr]

theorem node_apply_ledger_le (cfg : Node.Config) (hashOf : Nat → Nat → List Nat → Nat)
    (c : Node.Command) {s : Node.State}
    (hs : ∀ a, (s.ShadowItems a).length ≤ cfg.MaxItemsPerAccount) :
    ∀ a, ((Node.apply cfg hashOf c s).ShadowItems a).length ≤ cfg.MaxItemsPerAccount := by
  intro a
  cases c with
  | submit who cid key src md now =>
    simp only [Node.apply]
    cases hsub : Node.submit_shadow_item cfg hashOf s who cid key src md now with
    | ok p =>
      obtain ⟨s', idv⟩ := p
      obtain ⟨hlt, _, hwho, hother, _⟩ := node_submit_ok_inv hsub
      by_cases ha : a = who
      · subst ha
        rw [hwho]
        simp only [List.length_append, List.length_singleton]
        omega
      · rw [hother a ha]
        exact hs a
    | error e => exact hs a
  | delete who itemId =>
    simp only [Node.apply, Node.delete_shadow_item]
    cases hdel : Node.markDeleted (s.ShadowItems who) itemId with
    | none => exact hs a
    | some items =>
      by_cases ha : a = who
      · subst ha
        simp only [eq_self_iff_true, if_true]
        rw [markDeleted_length hdel]
        exact hs a
      · simp only [if_neg ha]
        exact hs a
  | grant who mh d now => exact hs a
  | revoke who =>
    simp only [Node.apply, Node.revoke_consent]
    cases s.ConsentRecords who with
    | none => exact hs a
    | some r => exact hs a

theorem node_foldl_ledger_le (cfg : Node.Config) (hashOf : Nat → Nat → List Nat → Nat) :
    ∀ (cs : List Node.Command) (s : Node.State),
      (∀ a, (s.ShadowItems a).length ≤ cfg.MaxItemsPerAccount) →
      ∀ a, ((cs.foldl (fun t c => Node.apply cfg hashOf c t) s).ShadowItems a).length ≤
        cfg.MaxItemsPerAccount
  | [], _, hs => hs
  | c :: cs, s, hs =>
    node_foldl_ledger_le cfg hashOf cs _ (node_apply_ledger_le cfg hashOf c hs)

theorem node_run_ledger_le (cfg : Node.Config) (hashOf : Nat → Nat → List Nat → Nat)
    (cs : List Node.Command) :
    ∀ a, ((Node.run cfg hashOf cs).ShadowItems a).length ≤ cfg.MaxItemsPerAccount :=
  node_foldl_ledger_le cfg hashOf cs Node.initState (fun _ => by simp [Node.initState])

theorem para_submit_ok_inv {cfg : Para.Config} {hashOf : Nat → Nat → List Nat → Nat}
    {s : Para.State} {who : Nat} {cid key : List Nat} {src : Nat}
    {md : List Nat} {blk : Nat} {s' : Para.State} {idv : Nat}
    (h : Para.submit_shadow_item cfg hashOf s who cid key src md blk = .ok (s', idv)) :
    Para.ensure_valid_consent s who blk = .ok () ∧
    (s.ShadowItems who).length < cfg.MaxItemsPerAccount ∧
    idv = hashOf who (s.accountNonce who) cid ∧
    s'.ShadowItems who = s.ShadowItems who ++
      [{ id := idv, cid := cid, encrypted_key := key, timestamp := blk,
         source := src, metadata := md }] ∧
    (∀ b, b ≠ who → s'.ShadowItems b = s.ShadowItems b) ∧
    s'.ConsentRecords = s.ConsentRecords ∧
    s'.accountNonce = s.accountNonce := by
  simp only [Para.submit_shadow_item] at h
  cases hc : Para.ensure_valid_consent s who blk with
  | error e => rw [hc] at h; exact absurd h (by simp)
  | ok u =>
    obtain ⟨⟩ := u
    rw [hc] at h
    simp only at h
    split_ifs at h with h1 h2 h3 h4 h5
    simp only [Except.ok.injEq, Prod.mk.injEq] at h
    obtain ⟨hs, hid⟩ := h
    subst hs
    subst hid
    refine ⟨rfl, h5, rfl, by simp, ?_, rfl, rfl⟩
    intro b hb
    simp [hb]

theorem para_apply_ledger_le (cfg : Para.Config) (hashOf : Nat → Nat → List Nat → Nat)
    (c : Para.Command) {s : Para.State}
    (hs : ∀ a, (s.ShadowItems a).length ≤ cfg.MaxItemsPerAccount) :
    ∀ a, ((Para.apply cfg hashOf c s).ShadowItems a).length ≤ cfg.MaxItemsPerAccount := by
  intro a
  cases c with
  | submit who cid key src md blk =>
    simp only [Para.apply]
    cases hsub : Para.submit_shadow_item cfg hashOf s who cid key src md blk with
    | ok p =>
      obtain ⟨s', idv⟩ := p
      obtain ⟨_, hlt, _, hwho, hother, _⟩ := para_submit_ok_inv hsub
      by_cases ha : a = who
      · subst ha
        rw [hwho]
        simp only [List.length_append, List.length_singleton]
        omega
      · rw [hother a ha]
        exact hs a
    | error e => exact hs a
  | delete who itemId =>
    simp only [Para.apply, Para.delete_shadow_item]
    by_cases ha : a = who
    · subst ha
      simp only [eq_self_iff_true, if_true]
      exact le_trans (List.length_filter_le _ _) (hs a)
    · simp only [if_neg ha]
      exact hs a
  | grant who mh d blk =>
    simp only [Para.apply, Para.grant_consent]
    split_ifs with h1
    · exact hs a
    · exact hs a
  | revoke who => exact hs a

theorem para_foldl_ledger_le (cfg : Para.Config) (hashOf : Nat → Nat → List Nat → Nat) :
    ∀ (cs : List Para.Command) (t : Para.State),
      (∀ a, (t.ShadowItems a).length ≤ cfg.MaxItemsPerAccount) →
      ∀ a, ((cs.foldl (fun u c => Para.apply cfg hashOf c u) t).ShadowItems a).length ≤
        cfg.MaxItemsPerAccount
  | [], _, hs => hs
  | c :: cs, t, hs =>
    para_foldl_ledger_le cfg hashOf cs _ (para_apply_ledger_le cfg hashOf c hs)

theorem para_run_ledger_le (cfg : Para.Config) (hashOf : Nat → Nat → List Nat → Nat)
    (cs : List Para.Command) :
    ∀ a, ((Para.run cfg hashOf cs).ShadowItems a).length ≤ cfg.MaxItemsPerAccount :=
  para_foldl_ledger_le cfg hashOf cs Para.initState (fun _ => by simp [Para.initState])

theorem node_apply_count_eq (cfg : Node.Config) (hashOf : Nat → Nat → List Nat → Nat)
    (c : Node.Command) (hmax : cfg.MaxItemsPerAccount < 2 ^ 32) {s : Node.State}
    (hs : ∀ a, s.ItemCount a = (s.ShadowItems a).length ∧
      (s.ShadowItems a).length ≤ cfg.MaxItemsPerAccount) :
    ∀ a, (Node.apply cfg hashOf c s).ItemCount a =
        ((Node.apply cfg hashOf c s).ShadowItems a).length ∧
      ((Node.apply cfg hashOf c s).ShadowItems a).length ≤ cfg.MaxItemsPerAccount := by
  intro a
  refine ⟨?_, node_apply_ledger_le cfg hashOf c (fun b => (hs b).2) a⟩
  cases c with
  | submit who cid key src md now =>
    simp only [Node.apply]
    cases hsub : Node.submit_shadow_item cfg hashOf s who cid key src md now with
    | ok p =>
      obtain ⟨s', idv⟩ := p
      obtain ⟨hlt, _, hwho, hother, hcwho, hcother, _⟩ := node_submit_ok_inv hsub
      by_cases ha : a = who
      · subst ha
        rw [hwho, hcwho, (hs a).1]
        simp only [List.length_append, List.length_singleton, Node.satAdd1]
        omega
      · rw [hother a ha, hcother a ha]
        exact (hs a).1
    | error e => exact (hs a).1
  | delete who itemId =>
    simp only [Node.apply, Node.delete_shadow_item]
    cases hdel : Node.markDeleted (s.ShadowItems who) itemId with
    | none => exact (hs a).1
    | some items =>
      by_cases ha : a = who
      · subst ha
        simp only [eq_self_iff_true, if_true]
        rw [markDeleted_length hdel]
        exact (hs a).1
      · simp only [if_neg ha]
        exact (hs a).1
  | grant who mh d now => exact (hs a).1
  | revoke who =>
    simp only [Node.apply, Node.revoke_consent]
    cases s.ConsentRecords who with
    | none => exact (hs a).1
    | some r => exact (hs a).1

theorem node_foldl_count_eq (cfg : Node.Config) (hashOf : Nat → Nat → List Nat → Nat)
    (hmax : cfg.MaxItemsPerAccount < 2 ^ 32) :
    ∀ (cs : List Node.Command) (t : Node.State),
      (∀ a, t.ItemCount a = (t.ShadowItems a).length ∧
        (t.ShadowItems a).length ≤ cfg.MaxItemsPerAccount) →
      ∀ a, (cs.foldl (fun u c => Node.apply cfg hashOf c u) t).ItemCount a =
          ((cs.foldl (fun u c => Node.apply cfg hashOf c u) t).ShadowItems a).length ∧
        ((cs.foldl (fun u c => Node.apply cfg hashOf c u) t).ShadowItems a).length ≤
          cfg.MaxItemsPerAccount
  | [], _, hs => hs
  | c :: cs, t, hs =>
    node_foldl_count_eq cfg hashOf hmax cs _ (node_apply_count_eq cfg hashOf c hmax hs)

theorem node_run_count_eq (cfg : Node.Config) (hashOf : Nat → Nat → List Nat → Nat)
    (hmax : cfg.MaxItemsPerAccount < 2 ^ 32) (cs : List Node.Command) :
    ∀ a, (Node.run cfg hashOf cs).ItemCount a =
        ((Node.run cfg hashOf cs).ShadowItems a).length ∧
      ((Node.run cfg hashOf cs).ShadowItems a).length ≤ cfg.MaxItemsPerAccount :=
  node_foldl_count_eq cfg hashOf hmax cs Node.initState
    (fun _ => by simp [Node.initState])

theorem node_apply_frame (cfg : Node.Config) (hashOf : Nat → Nat → List Nat → Nat)
    (c : Node.Command) (s : Node.State) {b : Nat} (hb : b ≠ c.caller) :
    (Node.apply cfg hashOf c s).ShadowItems b = s.ShadowItems b ∧
    (Node.apply cfg hashOf c s).ItemCount b = s.ItemCount b ∧
    (Node.apply cfg hashOf c s).ConsentRecords b = s.ConsentRecords b := by
  cases c with
  | submit who cid key src md now =>
    simp only [Node.Command.caller] at hb
    simp only [Node.apply]
    cases hsub : Node.submit_shadow_item cfg hashOf s who cid key src md now with
    | ok p =>
      obtain ⟨s', idv⟩ := p
      obtain ⟨_, _, _, hother, _, hcother, hcons⟩ := node_submit_ok_inv hsub
      exact ⟨hother b hb, hcother b hb, by rw [hcons]⟩
    | error e => exact ⟨rfl, rfl, rfl⟩
  | delete who itemId =>
    simp only [Node.Command.caller] at hb
    simp only [Node.apply, Node.delete_shadow_item]
    cases hdel : Node.markDeleted (s.ShadowItems who) itemId with
    | none => exact ⟨rfl, rfl, rfl⟩
    | some items => exact ⟨by simp [hb], rfl, rfl⟩
  | grant who mh d now =>
    simp only [Node.Command.caller] at hb
    simp [Node.apply, Node.grant_consent, hb]
  | revoke who =>
    simp only [Node.Command.caller] at hb
    simp only [Node.apply, Node.revoke_consent]
    cases s.ConsentRecords who with
    | none => exact ⟨rfl, rfl, rfl⟩
    | some r => exact ⟨rfl, rfl, by simp [hb]⟩

theorem para_apply_frame (cfg : Para.Config) (hashOf : Nat → Nat → List Nat → Nat)
    (c : Para.Command) (s : Para.State) {b : Nat} (hb : b ≠ c.caller) :
    (Para.apply cfg hashOf c s).ShadowItems b = s.ShadowItems b ∧
    (Para.apply cfg hashOf c s).ConsentRecords b = s.ConsentRecords b ∧
    (Para.apply cfg hashOf c s).accountNonce b = s.accountNonce b := by
  cases c with
  | submit who cid key src md blk =>
    simp only [Para.Command.caller] at hb
    simp only [Para.apply]
    cases hsub : Para.submit_shadow_item cfg hashOf s who cid key src md blk with
    | ok p =>
      obtain ⟨s', idv⟩ := p
      obtain ⟨_, _, _, _, hother, hcons, hnon⟩ := para_submit_ok_inv hsub
      exact ⟨hother b hb, by rw [hcons], by rw [hnon]⟩
    | error e => exact ⟨rfl, rfl, rfl⟩
  | delete who itemId =>
    simp only [Para.Command.caller] at hb
    simp [Para.apply, Para.delete_shadow_item, hb]
  | grant who mh d blk =>
    simp only [Para.Command.caller] at hb
    simp only [Para.apply, Para.grant_consent]
    split_ifs with h1
    · exact ⟨rfl, rfl, rfl⟩
    · exact ⟨rfl, by simp [hb], rfl⟩
  | revoke who =>
    simp only [Para.Command.caller] at hb
    simp [Para.apply, Para.revoke_consent, hb]

theorem para_apply_consent_none (cfg : Para.Config) (hashOf : Nat → Nat → List Nat → Nat)
    (c : Para.Command) {who : Nat} (hc : Para.Command.isGrantBy who c = false)
    {s : Para.State} (hs : s.ConsentRecords who = none) :
    (Para.apply cfg hashOf c s).ConsentRecords who = none := by
  cases c with
  | submit w cid key src md blk =>
    simp only [Para.apply]
    cases hsub : Para.submit_shadow_item cfg hashOf s w cid key src md blk with
    | ok p =>
      obtain ⟨s', idv⟩ := p
      obtain ⟨_, _, _, _, _, hcons, _⟩ := para_submit_ok_inv hsub
      rw [hcons]
      exact hs
    | error e => exact hs
  | delete w itemId =>
    simp only [Para.apply, Para.delete_shadow_item]
    exact hs
  | grant w mh d blk =>
    simp only [Para.Command.isGrantBy, beq_eq_false_iff_ne, ne_eq] at hc
    simp only [Para.apply, Para.grant_consent]
    split_ifs with h1
    · exact hs
    · simp only
      rw [if_neg (fun h => hc h.symm)]
      exact hs
  | revoke w =>
    simp only [Para.apply, Para.revoke_consent]
    by_cases hw : who = w
    · simp [hw]
    · simp only [if_neg hw]
      exact hs

theorem para_foldl_consent_none (cfg : Para.Config) (hashOf : Nat → Nat → List Nat → Nat)
    {who : Nat} :
    ∀ (cs : List Para.Command), (∀ c ∈ cs, Para.Command.isGrantBy who c = false) →
      ∀ (t : Para.State), t.ConsentRecords who = none →
      (cs.foldl (fun u c => Para.apply cfg hashOf c u) t).ConsentRecords who = none
  | [], _, _, hs => hs
  | c :: cs, hng, t, hs =>
    para_foldl_consent_none cfg hashOf cs (fun x hx => hng x (List.mem_cons_of_mem c hx)) _
      (para_apply_consent_none cfg hashOf c (hng c (List.mem_cons_self c cs)) hs)

theorem para_run_consent_none (cfg : Para.Config) (hashOf : Nat → Nat → List Nat → Nat)
    {who : Nat} (cs : List Para.Command)
    (hng : ∀ c ∈ cs, Para.Command.isGrantBy who c = false) :
    (Para.run cfg hashOf cs).ConsentRecords who = none :=
  para_foldl_consent_none cfg hashOf cs hng Para.initState rfl

theorem node_apply_count_le (cfg : Node.Config) (hashOf : Nat → Nat → List Nat → Nat)
    (c : Node.Command) (hmax : cfg.MaxItemsPerAccount < 2 ^ 32) {s : Node.State}
    (hs : ∀ a, s.ItemCount a = (s.ShadowItems a).length ∧
      (s.ShadowItems a).length ≤ cfg.MaxItemsPerAccount) :
    ∀ a, s.ItemCount a ≤ (Node.apply cfg hashOf c s).ItemCount a := by
  intro a
  cases c with
  | submit who cid key src md now =>
    simp only [Node.apply]
    cases hsub : Node.submit_shadow_item cfg hashOf s who cid key src md now with
    | ok p =>
      obtain ⟨s', idv⟩ := p
      obtain ⟨hlt, _, _, _, hcwho, hcother, _⟩ := node_submit_ok_inv hsub
      by_cases ha : a = who
      · rw [ha, hcwho, Node.satAdd1]
        refine le_min (Nat.le_succ _) ?_
        have h32 : (2 : Nat) ^ 32 = 4294967296 := by norm_num
        rw [h32] at hmax
        rw [h32]
        have hc := (hs who).1
        have hl := (hs who).2
        omega
      · rw [hcother a ha]
    | error e => exact le_rfl
  | delete who itemId =>
    simp only [Node.apply, Node.delete_shadow_item]
    cases hdel : Node.markDeleted (s.ShadowItems who) itemId with
    | none => exact le_rfl
    | some items => exact le_rfl
  | grant who mh d now => exact le_rfl
  | revoke who =>
    simp only [Node.apply, Node.revoke_consent]
    cases s.ConsentRecords who with
    | none => exact le_rfl
    | some r => exact le_rfl

theorem node_foldl_count_le (cfg : Node.Config) (hashOf : Nat → Nat → List Nat → Nat)
    (hmax : cfg.MaxItemsPerAccount < 2 ^ 32) :
    ∀ (ds : List Node.Command) (t : Node.State),
      (∀ a, t.ItemCount a = (t.ShadowItems a).length ∧
        (t.ShadowItems a).length ≤ cfg.MaxItemsPerAccount) →
      ∀ a, t.ItemCount a ≤
        (ds.foldl (fun u c => Node.apply cfg hashOf c u) t).ItemCount a
  | [], _, _, _ => le_rfl
  | c :: ds, t, hs, a =>
    le_trans (node_apply_count_le cfg hashOf c hmax hs a)
      (node_foldl_count_le cfg hashOf hmax ds _
        (node_apply_count_eq cfg hashOf c hmax hs) a)

theorem para_apply_nonce_eq (cfg : Para.Config) (hashOf : Nat → Nat → List Nat → Nat)
    (c : Para.Command) (s : Para.State) :
    (Para.apply cfg hashOf c s).accountNonce = s.accountNonce := by
  cases c with
  | submit who cid key src md blk =>
    simp only [Para.apply]
    cases hsub : Para.submit_shadow_item cfg hashOf s who cid key src md blk with
    | ok p =>
      obtain ⟨s', idv⟩ := p
      exact (para_submit_ok_inv hsub).2.2.2.2.2.2
    | error e => rfl
  | delete who itemId => rfl
  | grant who mh d blk =>
    simp only [Para.apply, Para.grant_consent]
    split_ifs with h1
    · rfl
    · rfl
  | revoke who => rfl

theorem para_applyTx_caller_nonce (cfg : Para.Config)
    (hashOf : Nat → Nat → List Nat → Nat) (c : Para.Command) (s : Para.State) :
    (Para.applyTx cfg hashOf c s).accountNonce c.caller =
      s.accountNonce c.caller + 1 := by
  simp [Para.applyTx, para_apply_nonce_eq]

theorem para_applyTx_nonce_le (cfg : Para.Config)
    (hashOf : Nat → Nat → List Nat → Nat) (c : Para.Command) (s : Para.State)
    (a : Nat) :
    s.accountNonce a ≤ (Para.applyTx cfg hashOf c s).accountNonce a := by
  simp only [Para.applyTx]
  rw [para_apply_nonce_eq]
  split_ifs <;> omega

theorem para_foldl_nonce_le (cfg : Para.Config)
    (hashOf : Nat → Nat → List Nat → Nat) :
    ∀ (ds : List Para.Command) (t : Para.State) (a : Nat),
      t.accountNonce a ≤
        (ds.foldl (fun u c => Para.applyTx cfg hashOf c u) t).accountNonce a
  | [], _, _ => le_rfl
  | c :: ds, t, a =>
    le_trans (para_applyTx_nonce_le cfg hashOf c t a)
      (para_foldl_nonce_le cfg hashOf ds _ a)

/-! ### Concrete fixtures used by witnesses and counterexamples -/

/-- Small node configuration: all length bounds 5, at most 3 items per account. -/
def cfgN : Node.Config := ⟨5, 5, 5, 3⟩

/-- Node configuration whose item capacity is 0, so every ledger is full. -/
def cfgN0 : Node.Config := ⟨5, 5, 5, 0⟩

/-- Small parachain configuration: capacity 3, all length bounds 5. -/
def cfgP : Para.Config := ⟨3, 5, 5, 5, 5⟩

/-- Parachain configuration whose item capacity is 0. -/
def cfgP0 : Para.Config := ⟨0, 5, 5, 5, 5⟩

/-- A concrete instantiation of the runtime hasher that returns the nonce;
it is injective in the nonce for fixed account and cid. -/
def hashNonce : Nat → Nat → List Nat → Nat := fun _ n _ => n

/-- Parachain state with an eternal consent record for every account and all
ledgers empty. -/
def stPgranted : Para.State :=
  { ShadowItems := fun _ => []
    ConsentRecords := fun _ =>
      some { granted_at := 0, expires_at := none, message_hash := [] }
    accountNonce := fun _ => 0 }

/-- Node state holding one undeleted item with id 5 in account 0's ledger. -/
def stOneItem : Node.State :=
  { ShadowItems := fun a =>
      if a = 0 then
        [{ id := 5, cid := [1], encrypted_key := [2], timestamp := 0,
           source := .GitHub, metadata := [], deleted := false }]
      else []
    ConsentRecords := fun _ => none
    ItemCount := fun _ => 1 }

/-! ### C1 -/

/-- C1 counterexample: in the substrate-node variant, `submit_shadow_item` for
an account with no consent record whatsoever does not fail `NoConsent` (that
error does not even exist there); the call succeeds and grows the ledger. -/
theorem consent_gate_divergence_counterexample :
    Node.initState.ConsentRecords 0 = none ∧
    exceptIsOk (Node.submit_shadow_item cfgN hashNonce Node.initState 0 [1] [2]
      .GitHub [] 7) = true ∧
    (∀ e : Node.Error,
      Node.submit_shadow_item cfgN hashNonce Node.initState 0 [1] [2] .GitHub [] 7 ≠
        .error e) ∧
    ((Node.apply cfgN hashNonce (.submit 0 [1] [2] .GitHub [] 7)
      Node.initState).ShadowItems 0).length = 1 := by
  refine ⟨rfl, rfl, ?_, rfl⟩
  intro e
  have hok : exceptIsOk (Node.submit_shadow_item cfgN hashNonce Node.initState 0 [1] [2]
      .GitHub [] 7) = true := rfl
  exact exceptIsOk_ne_error hok e

/-- C1 (amended): in the parachain variant every `submit_shadow_item` by an
account with no prior `grant_consent` call fails `NoConsent` and leaves the
state, in particular the account's ledger length, unchanged; the
substrate-node variant performs no consent check, and its submit can fail only
with one of the four length/capacity errors. -/
theorem consent_gate_parachain_amended (cfg : Para.Config)
    (hashOf : Nat → Nat → List Nat → Nat) (cs : List Para.Command) (who : Nat)
    (hng : ∀ c ∈ cs, Para.Command.isGrantBy who c = false)
    (cid key md : List Nat) (src blk : Nat) :
    Para.submit_shadow_item cfg hashOf (Para.run cfg hashOf cs) who cid key src md blk =
      .error .NoConsent ∧
    Para.apply cfg hashOf (.submit who cid key src md blk) (Para.run cfg hashOf cs) =
      Para.run cfg hashOf cs ∧
    (∀ (cfg2 : Node.Config) (t : Node.State) (w : Nat) (cid2 key2 : List Nat)
        (src2 : ContentSource) (md2 : List Nat) (now : Nat) (e : Node.Error),
      Node.submit_shadow_item cfg2 hashOf t w cid2 key2 src2 md2 now = .error e →
      e = .CidTooLong ∨ e = .KeyTooLong ∨ e = .MetadataTooLong ∨ e = .TooManyItems) := by
  have hnone : (Para.run cfg hashOf cs).ConsentRecords who = none :=
    para_run_consent_none cfg hashOf cs hng
  have hsub : Para.submit_shadow_item cfg hashOf (Para.run cfg hashOf cs) who cid key
      src md blk = .error .NoConsent := by
    simp [Para.submit_shadow_item, Para.ensure_valid_consent, hnone]
  refine ⟨hsub, ?_, fun _ _ _ _ _ _ _ _ e he => node_submit_error_cases he⟩
  simp [Para.apply, hsub]

/-- C1 witness: the amended statement exercised on a concrete grant-free trace. -/
theorem consent_gate_parachain_amended_witness :
    Para.submit_shadow_item cfgP hashNonce (Para.run cfgP hashNonce [.revoke 0]) 0
      [1] [2] 0 [] 3 = .error .NoConsent :=
  (consent_gate_parachain_amended cfgP hashNonce [.revoke 0] 0
    (by intro c hc; simp at hc; subst hc; rfl) [1] [2] [] 0 3).1

/-! ### C2 -/

/-- C2: in every state reachable from genesis, every account's ledger length is
at most `MaxItemsPerAccount` (both variants); and a submit whose other
validations pass finds the ledger at capacity, fails `TooManyItems` and leaves
the state unchanged (both variants). -/
theorem ledger_capacity_invariant (cfgA : Node.Config) (cfgB : Para.Config)
    (hashOf : Nat → Nat → List Nat → Nat)
    (cs : List Node.Command) (ps : List Para.Command) :
    (∀ a, ((Node.run cfgA hashOf cs).ShadowItems a).length ≤ cfgA.MaxItemsPerAccount) ∧
    (∀ a, ((Para.run cfgB hashOf ps).ShadowItems a).length ≤ cfgB.MaxItemsPerAccount) ∧
    (∀ (s : Node.State) (who : Nat) (cid key : List Nat) (src : ContentSource)
        (md : List Nat) (now : Nat),
      cid.length ≤ cfgA.MaxCidLength → key.length ≤ cfgA.MaxKeyLength →
      md.length ≤ cfgA.MaxMetadataLength →
      (s.ShadowItems who).length = cfgA.MaxItemsPerAccount →
      Node.submit_shadow_item cfgA hashOf s who cid key src md now = .error .TooManyItems ∧
      Node.apply cfgA hashOf (.submit who cid key src md now) s = s) ∧
    (∀ (t : Para.State) (who : Nat) (cid key : List Nat) (src : Nat)
        (md : List Nat) (blk : Nat),
      Para.ensure_valid_consent t who blk = .ok () →
      cid.length ≤ cfgB.MaxCidLength → key.length ≤ cfgB.MaxKeyLength →
      md.length ≤ cfgB.MaxMetadataLength → src ≤ 1 →
      (t.ShadowItems who).length = cfgB.MaxItemsPerAccount →
      Para.submit_shadow_item cfgB hashOf t who cid key src md blk = .error .TooManyItems ∧
      Para.apply cfgB hashOf (.submit who cid key src md blk) t = t) := by
  refine ⟨node_run_ledger_le cfgA hashOf cs, para_run_ledger_le cfgB hashOf ps, ?_, ?_⟩
  · intro s who cid key src md now h1 h2 h3 hfull
    have hsub : Node.submit_shadow_item cfgA hashOf s who cid key src md now =
        .error .TooManyItems := by
      simp only [Node.submit_shadow_item]
      rw [if_neg (Nat.not_lt.mpr h1), if_neg (Nat.not_lt.mpr h2),
        if_neg (Nat.not_lt.mpr h3), if_neg (Nat.not_lt.mpr (le_of_eq hfull.symm))]
    exact ⟨hsub, by simp [Node.apply, hsub]⟩
  · intro t who cid key src md blk hcons h1 h2 h3 h4 hfull
    have hsub : Para.submit_shadow_item cfgB hashOf t who cid key src md blk =
        .error .TooManyItems := by
      simp only [Para.submit_shadow_item]
      rw [hcons]
      simp only
      rw [if_neg (Nat.not_lt.mpr h1), if_neg (Nat.not_lt.mpr h2),
        if_neg (Nat.not_lt.mpr h3), if_neg (Nat.not_lt.mpr h4),
        if_neg (Nat.not_lt.mpr h1), if_neg (Nat.not_lt.mpr h2),
        if_neg (Nat.not_lt.mpr h3), if_neg (Nat.not_lt.mpr (le_of_eq hfull.symm))]
    exact ⟨hsub, by simp [Para.apply, hsub]⟩

/-- C2 witness: with capacity 0 the genesis ledger is already full, so the
invariant holds and a validated submit fails `TooManyItems` in both variants. -/
theorem ledger_capacity_invariant_witness :
    ((Node.run cfgN0 hashNonce []).ShadowItems 0).length ≤ cfgN0.MaxItemsPerAccount ∧
    Node.submit_shadow_item cfgN0 hashNonce Node.initState 0 [] [] .GitHub [] 0 =
      .error .TooManyItems ∧
    Para.submit_shadow_item cfgP0 hashNonce stPgranted 0 [] [] 0 [] 0 =
      .error .TooManyItems := by
  obtain ⟨h1, h2, h3, h4⟩ := ledger_capacity_invariant cfgN0 cfgP0 hashNonce [] []
  exact ⟨h1 0,
    (h3 Node.initState 0 [] [] .GitHub [] 0 (by decide) (by decide) (by decide) rfl).1,
    (h4 stPgranted 0 [] [] 0 [] 0 rfl (by decide) (by decide) (by decide) (by decide) rfl).1⟩

/-! ### C3 -/

/-- C3: when the requested id is present in the caller's ledger,
`delete_shadow_item` (substrate-node variant) succeeds, replaces the first
matching entry in place by the same entry with `deleted = true` (no physical
removal, length and positions preserved, everything else untouched), and
`get_active_items` afterwards is exactly the subsequence of non-deleted
entries in insertion order. -/
theorem delete_tombstone_and_active_items (s : Node.State) (who itemId : Nat)
    (hmem : ∃ x ∈ s.ShadowItems who, x.id = itemId) :
    ∃ s', Node.delete_shadow_item s who itemId = .ok s' ∧
      (∃ k, ∃ hk : k < (s.ShadowItems who).length,
        ((s.ShadowItems who).get ⟨k, hk⟩).id = itemId ∧
        s'.ShadowItems who =
          (s.ShadowItems who).set k
            { (s.ShadowItems who).get ⟨k, hk⟩ with deleted := true }) ∧
      (s'.ShadowItems who).length = (s.ShadowItems who).length ∧
      (∀ b, b ≠ who → s'.ShadowItems b = s.ShadowItems b) ∧
      s'.ConsentRecords = s.ConsentRecords ∧
      s'.ItemCount = s.ItemCount ∧
      List.Sublist (Node.get_active_items s' who) (s'.ShadowItems who) ∧
      (∀ x, x ∈ Node.get_active_items s' who ↔
        x ∈ s'.ShadowItems who ∧ x.deleted = false) := by
  cases hmd : Node.markDeleted (s.ShadowItems who) itemId with
  | none =>
    exfalso
    obtain ⟨x, hx, hxid⟩ := hmem
    exact (markDeleted_none_iff (s.ShadowItems who) itemId).1 hmd x hx hxid
  | some items =>
    refine ⟨{ s with ShadowItems := fun a => if a = who then items else s.ShadowItems a },
      by simp [Node.delete_shadow_item, hmd], ?_, ?_, ?_, rfl, rfl, ?_, ?_⟩
    · obtain ⟨k, hk, hid, _, hset⟩ := markDeleted_spec hmd
      exact ⟨k, hk, hid, by simpa using hset⟩
    · simpa using markDeleted_length hmd
    · intro b hb
      simp [hb]
    · exact List.filter_sublist _
    · intro x
      simp [Node.get_active_items, List.mem_filter]

/-- C3 witness: the theorem applied to a ledger holding one undeleted item. -/
theorem delete_tombstone_and_active_items_witness :
    (∃ x ∈ stOneItem.ShadowItems 0, x.id = 5) ∧
    exceptIsOk (Node.delete_shadow_item stOneItem 0 5) = true := by
  have hmem : ∃ x ∈ stOneItem.ShadowItems 0, x.id = 5 :=
    ⟨{ id := 5, cid := [1], encrypted_key := [2], timestamp := 0,
       source := .GitHub, metadata := [], deleted := false }, by simp [stOneItem], rfl⟩
  obtain ⟨s', hs', _⟩ := delete_tombstone_and_active_items stOneItem 0 5 hmem
  exact ⟨hmem, by rw [hs']; rfl⟩

/-! ### C10 -/

/-- C10: deletion is idempotent in the substrate-node variant — after a
successful `delete_shadow_item`, repeating the call with the same id succeeds
again (the tombstoned entry is still locatable by id) and returns a state
equal to the state before the repeat. -/
theorem delete_idempotent (s s' : Node.State) (who itemId : Nat)
    (h : Node.delete_shadow_item s who itemId = .ok s') :
    Node.delete_shadow_item s' who itemId = .ok s' := by
  obtain ⟨si, cr, ic⟩ := s
  simp only [Node.delete_shadow_item] at h
  cases hmd : Node.markDeleted (si who) itemId with
  | none =>
    rw [hmd] at h
    exact absurd h (by simp)
  | some items =>
    rw [hmd] at h
    simp only [Except.ok.injEq] at h
    subst h
    simp only [Node.delete_shadow_item, eq_self_iff_true, if_true,
      markDeleted_idem hmd, Except.ok.injEq, Node.State.mk.injEq, and_true, true_and]
    funext a
    by_cases ha : a = who
    · simp [ha]
    · simp [ha]

/-- C10 witness: delete twice on the one-item ledger; the second call returns
the same state. -/
theorem delete_idempotent_witness :
    ∃ u, Node.delete_shadow_item stOneItem 0 5 = .ok u ∧
      Node.delete_shadow_item u 0 5 = .ok u := by
  refine ⟨_, rfl, ?_⟩
  exact delete_idempotent stOneItem _ 0 5 rfl

/-! ### C4 -/

/-- C4 counterexample: the parachain variant's `delete_shadow_item` on an id
absent from the caller's ledger does not fail `ItemNotFound` — it succeeds. -/
theorem delete_missing_id_counterexample :
    (∀ x ∈ Para.initState.ShadowItems 0, x.id ≠ 99) ∧
    exceptIsOk (Para.delete_shadow_item Para.initState 0 99) = true ∧
    Para.delete_shadow_item Para.initState 0 99 ≠ .error .ItemNotFound := by
  refine ⟨by simp [Para.initState], rfl, ?_⟩
  have hok : exceptIsOk (Para.delete_shadow_item Para.initState 0 99) = true := rfl
  exact exceptIsOk_ne_error hok _

/-- C4 (amended): in the substrate-node variant, deleting an id absent from
the caller's ledger (which includes ids present only in another account's
ledger, since lookup is confined to the caller's own entry) fails
`ItemNotFound` with no state change; in the parachain variant
`delete_shadow_item` never fails — it physically removes matching entries and
is a successful no-op when the id is absent. -/
theorem delete_missing_id_amended (s : Node.State) (who itemId : Nat)
    (habs : ∀ x ∈ s.ShadowItems who, x.id ≠ itemId) :
    Node.delete_shadow_item s who itemId = .error .ItemNotFound ∧
    (∀ (cfg : Node.Config) (hashOf : Nat → Nat → List Nat → Nat),
      Node.apply cfg hashOf (.delete who itemId) s = s) ∧
    (∀ (t : Para.State) (w i : Nat), exceptIsOk (Para.delete_shadow_item t w i) = true) ∧
    (∀ (t : Para.State) (w i : Nat), (∀ x ∈ t.ShadowItems w, x.id ≠ i) →
      Para.delete_shadow_item t w i = .ok t) := by
  have hmd : Node.markDeleted (s.ShadowItems who) itemId = none :=
    (markDeleted_none_iff (s.ShadowItems who) itemId).2 habs
  have hdel : Node.delete_shadow_item s who itemId = .error .ItemNotFound := by
    simp [Node.delete_shadow_item, hmd]
  refine ⟨hdel, fun cfg hashOf => by simp [Node.apply, hdel], fun _ _ _ => rfl, ?_⟩
  intro t w i habs'
  have hfil : (t.ShadowItems w).filter (fun item => item.id != i) = t.ShadowItems w :=
    List.filter_eq_self.mpr (fun x hx => by simpa using habs' x hx)
  obtain ⟨si, cr, an⟩ := t
  simp only [Para.delete_shadow_item, Except.ok.injEq, Para.State.mk.injEq,
    and_true, true_and]
  funext a
  by_cases ha : a = w
  · subst ha
    simpa using hfil
  · simp [ha]

/-- C4 witness: the amended statement on the empty genesis state and id 7. -/
theorem delete_missing_id_amended_witness :
    (∀ x ∈ Node.initState.ShadowItems 0, x.id ≠ 7) ∧
    Node.delete_shadow_item Node.initState 0 7 = .error .ItemNotFound := by
  have habs : ∀ x ∈ Node.initState.ShadowItems 0, x.id ≠ 7 := by simp [Node.initState]
  exact ⟨habs, (delete_missing_id_amended Node.initState 0 7 habs).1⟩

/-! ### C5 -/

/-- C5: after a grant at logical time `T` with duration `d`, the consent check
succeeds for every `now` with `T ≤ now ≤ T + d` (and the parachain submit gate
can then raise neither `NoConsent` nor `ConsentExpired`), fails
`ConsentExpired` for `now > T + d`, and a record granted with no duration
never expires; the substrate-node `has_valid_consent` agrees, returning
`now ≤ T + d` resp. `true`. -/
theorem consent_expiry_window (cfg : Para.Config) (hashOf : Nat → Nat → List Nat → Nat)
    (s : Para.State) (who : Nat) (mh : List Nat) (d T now : Nat) (s' : Para.State)
    (hgrant : Para.grant_consent cfg s who mh (some d) T = .ok s')
    (hTnow : T ≤ now) :
    (now ≤ T + d →
      Para.ensure_valid_consent s' who now = .ok () ∧
      ∀ (cid key md : List Nat) (src : Nat),
        Para.submit_shadow_item cfg hashOf s' who cid key src md now ≠
          .error .NoConsent ∧
        Para.submit_shadow_item cfg hashOf s' who cid key src md now ≠
          .error .ConsentExpired) ∧
    (T + d < now → Para.ensure_valid_consent s' who now = .error .ConsentExpired) ∧
    (∀ s₂, Para.grant_consent cfg s who mh none T = .ok s₂ →
      ∀ m, Para.ensure_valid_consent s₂ who m = .ok ()) ∧
    (∀ (t : Node.State) (mh2 : Nat),
      Node.has_valid_consent (Node.grant_consent t who mh2 (some d) T) who now =
        decide (now ≤ T + d) ∧
      Node.has_valid_consent (Node.grant_consent t who mh2 none T) who now = true) := by
  have hrec : s'.ConsentRecords who =
      some { granted_at := T, expires_at := some (T + d), message_hash := mh } := by
    simp only [Para.grant_consent] at hgrant
    split_ifs at hgrant with h1
    simp only [Except.ok.injEq] at hgrant
    subst hgrant
    simp
  refine ⟨?_, ?_, ?_, ?_⟩
  · intro hle
    have hens : Para.ensure_valid_consent s' who now = .ok () := by
      simp [Para.ensure_valid_consent, hrec, hle]
    refine ⟨hens, ?_⟩
    intro cid key md src
    constructor
    · simp only [Para.submit_shadow_item, hens]
      split_ifs <;> simp
    · simp only [Para.submit_shadow_item, hens]
      split_ifs <;> simp
  · intro hgt
    have hnle : ¬ (now ≤ T + d) := by omega
    simp [Para.ensure_valid_consent, hrec, hnle]
  · intro s₂ hg2 m
    have hrec2 : s₂.ConsentRecords who =
        some { granted_at := T, expires_at := none, message_hash := mh } := by
      simp only [Para.grant_consent] at hg2
      split_ifs at hg2 with h1
      simp only [Except.ok.injEq] at hg2
      subst hg2
      simp
    simp [Para.ensure_valid_consent, hrec2]
  · intro t mh2
    constructor
    · simp [Node.grant_consent, Node.has_valid_consent]
    · simp [Node.grant_consent, Node.has_valid_consent]

/-- C5 witness: grant at time 1 with duration 10; the check passes at time 5. -/
theorem consent_expiry_window_witness :
    ∃ s', Para.grant_consent cfgP Para.initState 0 [1] (some 10) 1 = .ok s' ∧
      Para.ensure_valid_consent s' 0 5 = .ok () := by
  refine ⟨_, rfl, ?_⟩
  exact ((consent_expiry_window cfgP hashNonce Para.initState 0 [1] 10 1 5 _ rfl
    (by decide)).1 (by decide)).1

/-! ### C6 -/

/-- C6: any two successful submissions of a byte-identical cid by the same
account, anywhere in a trace, yield distinct ids, in both variants.  The
substrate-node id hashes `(who, ItemCount who, cid)` and the counter strictly
increases at every successful submit and never decreases afterwards; the
parachain id hashes `(who, account_nonce who, cid)` and the frame-system nonce
is bumped once per signed extrinsic (`Para.applyTx`) and never decreases.  The
hash is assumed collision-free in the counter argument (it is a type parameter
of both pallets). -/
theorem distinct_ids_same_cid (hashOf : Nat → Nat → List Nat → Nat)
    (hinj : ∀ who n n' cid, hashOf who n cid = hashOf who n' cid → n = n') :
    (∀ (cfg : Node.Config), cfg.MaxItemsPerAccount < 2 ^ 32 →
      ∀ (cs ds : List Node.Command) (who : Nat) (cid key key' : List Nat)
        (src src' : ContentSource) (md md' : List Nat) (now now' : Nat)
        (s1 s2 : Node.State) (id1 id2 : Nat),
        Node.submit_shadow_item cfg hashOf (Node.run cfg hashOf cs) who cid key
          src md now = .ok (s1, id1) →
        Node.submit_shadow_item cfg hashOf
          (Node.run cfg hashOf (cs ++ .submit who cid key src md now :: ds))
          who cid key' src' md' now' = .ok (s2, id2) →
        id1 ≠ id2) ∧
    (∀ (cfg : Para.Config) (cs ds : List Para.Command) (who : Nat)
        (cid key key' : List Nat) (src src' : Nat) (md md' : List Nat)
        (blk blk' : Nat) (t1 t2 : Para.State) (id1 id2 : Nat),
        Para.submit_shadow_item cfg hashOf (Para.runTx cfg hashOf cs) who cid key
          src md blk = .ok (t1, id1) →
        Para.submit_shadow_item cfg hashOf
          (Para.runTx cfg hashOf (cs ++ .submit who cid key src md blk :: ds))
          who cid key' src' md' blk' = .ok (t2, id2) →
        id1 ≠ id2) := by
  constructor
  · intro cfg hmax cs ds who cid key key' src src' md md' now now' s1 s2 id1 id2 h1 h2
    have hinvr := node_run_count_eq cfg hashOf hmax cs
    obtain ⟨hlt1, hid1, _, _, hcw1, _, _⟩ := node_submit_ok_inv h1
    have hs1 : Node.apply cfg hashOf (.submit who cid key src md now)
        (Node.run cfg hashOf cs) = s1 := by
      simp [Node.apply, h1]
    have hpre : Node.run cfg hashOf (cs ++ .submit who cid key src md now :: ds) =
        ds.foldl (fun u c => Node.apply cfg hashOf c u) s1 := by
      rw [← hs1]
      simp only [Node.run, List.foldl_append, List.foldl_cons]
    have hinv1 : ∀ a, s1.ItemCount a = (s1.ShadowItems a).length ∧
        (s1.ShadowItems a).length ≤ cfg.MaxItemsPerAccount := by
      rw [← hs1]
      exact node_apply_count_eq cfg hashOf _ hmax hinvr
    have hmono : s1.ItemCount who ≤
        (ds.foldl (fun u c => Node.apply cfg hashOf c u) s1).ItemCount who :=
      node_foldl_count_le cfg hashOf hmax ds s1 hinv1 who
    obtain ⟨_, hid2, _, _, _, _, _⟩ := node_submit_ok_inv h2
    rw [hpre] at hid2
    have h32 : (2 : Nat) ^ 32 = 4294967296 := by norm_num
    rw [h32] at hmax
    have hc1 : (Node.run cfg hashOf cs).ItemCount who + 1 ≤ 4294967296 - 1 := by
      have hce := (hinvr who).1
      have hlb := (hinvr who).2
      omega
    have hsat : Node.satAdd1 ((Node.run cfg hashOf cs).ItemCount who) =
        (Node.run cfg hashOf cs).ItemCount who + 1 := by
      rw [Node.satAdd1, h32]
      exact Nat.min_eq_left hc1
    intro heq
    have hkey : hashOf who ((Node.run cfg hashOf cs).ItemCount who) cid =
        hashOf who ((ds.foldl (fun u c => Node.apply cfg hashOf c u)
          s1).ItemCount who) cid := by
      rw [← hid1, ← hid2]
      exact heq
    have hcc := hinj who ((Node.run cfg hashOf cs).ItemCount who)
      ((ds.foldl (fun u c => Node.apply cfg hashOf c u) s1).ItemCount who) cid hkey
    rw [hcw1, hsat] at hmono
    omega
  · intro cfg cs ds who cid key key' src src' md md' blk blk' t1 t2 id1 id2 h1 h2
    obtain ⟨_, _, hid1, _, _, _, _⟩ := para_submit_ok_inv h1
    obtain ⟨_, _, hid2, _, _, _, _⟩ := para_submit_ok_inv h2
    have hpre : Para.runTx cfg hashOf (cs ++ .submit who cid key src md blk :: ds) =
        ds.foldl (fun u c => Para.applyTx cfg hashOf c u)
          (Para.applyTx cfg hashOf (.submit who cid key src md blk)
            (Para.runTx cfg hashOf cs)) := by
      simp only [Para.runTx, List.foldl_append, List.foldl_cons]
    have hbump : (Para.applyTx cfg hashOf (.submit who cid key src md blk)
        (Para.runTx cfg hashOf cs)).accountNonce who =
        (Para.runTx cfg hashOf cs).accountNonce who + 1 :=
      para_applyTx_caller_nonce cfg hashOf (.submit who cid key src md blk)
        (Para.runTx cfg hashOf cs)
    have hmono : (Para.applyTx cfg hashOf (.submit who cid key src md blk)
        (Para.runTx cfg hashOf cs)).accountNonce who ≤
        (ds.foldl (fun u c => Para.applyTx cfg hashOf c u)
          (Para.applyTx cfg hashOf (.submit who cid key src md blk)
            (Para.runTx cfg hashOf cs))).accountNonce who :=
      para_foldl_nonce_le cfg hashOf ds _ who
    rw [hpre] at hid2
    intro heq
    have hkey : hashOf who ((Para.runTx cfg hashOf cs).accountNonce who) cid =
        hashOf who ((ds.foldl (fun u c => Para.applyTx cfg hashOf c u)
          (Para.applyTx cfg hashOf (.submit who cid key src md blk)
            (Para.runTx cfg hashOf cs))).accountNonce who) cid := by
      rw [← hid1, ← hid2]
      exact heq
    have hcc := hinj who ((Para.runTx cfg hashOf cs).accountNonce who)
      ((ds.foldl (fun u c => Para.applyTx cfg hashOf c u)
        (Para.applyTx cfg hashOf (.submit who cid key src md blk)
          (Para.runTx cfg hashOf cs))).accountNonce who) cid hkey
    rw [hbump] at hmono
    omega

/-- C6 witness: in each variant, two same-cid submissions in a concrete trace
(with a consent grant first on the parachain) produce distinct ids under the
nonce-returning hasher. -/
theorem distinct_ids_same_cid_witness :
    (∃ s1 id1 s2 id2,
      Node.submit_shadow_item cfgN hashNonce (Node.run cfgN hashNonce []) 0 [1] [2]
        .GitHub [] 3 = .ok (s1, id1) ∧
      Node.submit_shadow_item cfgN hashNonce
        (Node.run cfgN hashNonce ([] ++ .submit 0 [1] [2] .GitHub [] 3 :: []))
        0 [1] [2] .Twitter [] 4 = .ok (s2, id2) ∧
      id1 ≠ id2) ∧
    (∃ t1 id1 t2 id2,
      Para.submit_shadow_item cfgP hashNonce
        (Para.runTx cfgP hashNonce [.grant 0 [1] none 1]) 0 [1] [2] 0 [] 3 =
        .ok (t1, id1) ∧
      Para.submit_shadow_item cfgP hashNonce
        (Para.runTx cfgP hashNonce
          ([.grant 0 [1] none 1] ++ .submit 0 [1] [2] 0 [] 3 :: []))
        0 [1] [2] 0 [] 4 = .ok (t2, id2) ∧
      id1 ≠ id2) := by
  constructor
  · refine ⟨_, _, _, _, rfl, rfl, ?_⟩
    exact (distinct_ids_same_cid hashNonce (fun _ _ _ _ h => h)).1 cfgN (by decide)
      [] [] 0 [1] [2] [2] .GitHub .Twitter [] [] 3 4 _ _ _ _ rfl rfl
  · refine ⟨_, _, _, _, rfl, rfl, ?_⟩
    exact (distinct_ids_same_cid hashNonce (fun _ _ _ _ h => h)).2 cfgP
      [.grant 0 [1] none 1] [] 0 [1] [2] [2] 0 0 [] [] 3 4 _ _ _ _ rfl rfl

/-! ### C7 -/

/-- C7 counterexample: the parachain variant's `revoke_consent` succeeds even
when no consent record exists for the caller. -/
theorem revoke_missing_counterexample :
    Para.initState.ConsentRecords 0 = none ∧
    exceptIsOk (Para.revoke_consent Para.initState 0) = true :=
  ⟨rfl, rfl⟩

/-- C7 (amended): in the substrate-node variant `revoke_consent` fails
`ConsentNotFound` when no record exists (leaving the state unchanged) and on
success removes the record, after which the consent check fails; in the
parachain variant `revoke_consent` always succeeds, removing the record when
present and acting as a no-op otherwise. -/
theorem revoke_consent_amended (s : Node.State) (who : Nat) :
    (s.ConsentRecords who = none →
      Node.revoke_consent s who = .error .ConsentNotFound ∧
      ∀ (cfg : Node.Config) (hashOf : Nat → Nat → List Nat → Nat),
        Node.apply cfg hashOf (.revoke who) s = s) ∧
    (∀ r, s.ConsentRecords who = some r →
      ∃ s', Node.revoke_consent s who = .ok s' ∧ s'.ConsentRecords who = none ∧
        ∀ now, Node.has_valid_consent s' who now = false) ∧
    (∀ (t : Para.State) (w : Nat),
      ∃ t', Para.revoke_consent t w = .ok t' ∧ t'.ConsentRecords w = none) := by
  refine ⟨?_, ?_, ?_⟩
  · intro hnone
    have hrev : Node.revoke_consent s who = .error .ConsentNotFound := by
      simp [Node.revoke_consent, hnone]
    exact ⟨hrev, fun cfg hashOf => by simp [Node.apply, hrev]⟩
  · intro r hr
    refine ⟨{ s with ConsentRecords := fun a => if a = who then none
        else s.ConsentRecords a }, by simp [Node.revoke_consent, hr], by simp, ?_⟩
    intro now
    simp [Node.has_valid_consent]
  · intro t w
    exact ⟨_, rfl, by simp⟩

/-- C7 witness: both halves exercised at concrete states. -/
theorem revoke_consent_amended_witness :
    Node.revoke_consent Node.initState 0 = .error .ConsentNotFound ∧
    (∃ t', Para.revoke_consent stPgranted 1 = .ok t' ∧ t'.ConsentRecords 1 = none) := by
  refine ⟨((revoke_consent_amended Node.initState 0).1 rfl).1, ?_⟩
  exact (revoke_consent_amended Node.initState 0).2.2 stPgranted 1

/-! ### C8 -/

/-- C8: length validation checks cid first, then key, then metadata, and
returns the corresponding first "-TooLong" error (in the parachain variant
this holds once the consent gate has passed, since consent is checked first);
every failing submit leaves the whole state — ledger, per-account counter and
consent records — unchanged, in both variants. -/
theorem validation_order_and_no_partial_effects (cfgA : Node.Config)
    (cfgB : Para.Config) (hashOf : Nat → Nat → List Nat → Nat) :
    (∀ (s : Node.State) (who : Nat) (cid key : List Nat) (src : ContentSource)
        (md : List Nat) (now : Nat),
      (cfgA.MaxCidLength < cid.length →
        Node.submit_shadow_item cfgA hashOf s who cid key src md now =
          .error .CidTooLong) ∧
      (cid.length ≤ cfgA.MaxCidLength → cfgA.MaxKeyLength < key.length →
        Node.submit_shadow_item cfgA hashOf s who cid key src md now =
          .error .KeyTooLong) ∧
      (cid.length ≤ cfgA.MaxCidLength → key.length ≤ cfgA.MaxKeyLength →
        cfgA.MaxMetadataLength < md.length →
        Node.submit_shadow_item cfgA hashOf s who cid key src md now =
          .error .MetadataTooLong) ∧
      (∀ e, Node.submit_shadow_item cfgA hashOf s who cid key src md now = .error e →
        Node.apply cfgA hashOf (.submit who cid key src md now) s = s)) ∧
    (∀ (t : Para.State) (who : Nat) (cid key : List Nat) (src : Nat)
        (md : List Nat) (blk : Nat),
      Para.ensure_valid_consent t who blk = .ok () →
      (cfgB.MaxCidLength < cid.length →
        Para.submit_shadow_item cfgB hashOf t who cid key src md blk =
          .error .CidTooLong) ∧
      (cid.length ≤ cfgB.MaxCidLength → cfgB.MaxKeyLength < key.length →
        Para.submit_shadow_item cfgB hashOf t who cid key src md blk =
          .error .KeyTooLong) ∧
      (cid.length ≤ cfgB.MaxCidLength → key.length ≤ cfgB.MaxKeyLength →
        cfgB.MaxMetadataLength < md.length →
        Para.submit_shadow_item cfgB hashOf t who cid key src md blk =
          .error .MetadataTooLong)) ∧
    (∀ (t : Para.State) (who : Nat) (cid key : List Nat) (src : Nat)
        (md : List Nat) (blk : Nat) (e : Para.Error),
      Para.submit_shadow_item cfgB hashOf t who cid key src md blk = .error e →
      Para.apply cfgB hashOf (.submit who cid key src md blk) t = t) := by
  refine ⟨?_, ?_, ?_⟩
  · intro s who cid key src md now
    refine ⟨?_, ?_, ?_, ?_⟩
    · intro h1
      simp only [Node.submit_shadow_item]
      rw [if_pos h1]
    · intro h1 h2
      simp only [Node.submit_shadow_item]
      rw [if_neg (Nat.not_lt.mpr h1), if_pos h2]
    · intro h1 h2 h3
      simp only [Node.submit_shadow_item]
      rw [if_neg (Nat.not_lt.mpr h1), if_neg (Nat.not_lt.mpr h2), if_pos h3]
    · intro e he
      simp [Node.apply, he]
  · intro t who cid key src md blk hcons
    refine ⟨?_, ?_, ?_⟩
    · intro h1
      simp only [Para.submit_shadow_item]
      rw [hcons]
      simp only
      rw [if_pos h1]
    · intro h1 h2
      simp only [Para.submit_shadow_item]
      rw [hcons]
      simp only
      rw [if_neg (Nat.not_lt.mpr h1), if_pos h2]
    · intro h1 h2 h3
      simp only [Para.submit_shadow_item]
      rw [hcons]
      simp only
      rw [if_neg (Nat.not_lt.mpr h1), if_neg (Nat.not_lt.mpr h2), if_pos h3]
  · intro t who cid key src md blk e he
    simp [Para.apply, he]

/-- C8 witness: a cid one byte over the bound yields `CidTooLong` even though
the key is also over its bound, and the failing call leaves the state fixed. -/
theorem validation_order_witness :
    Node.submit_shadow_item cfgN hashNonce Node.initState 0 [1, 2, 3, 4, 5, 6]
      [1, 2, 3, 4, 5, 6, 7] .GitHub [] 0 = .error .CidTooLong ∧
    Node.apply cfgN hashNonce
      (.submit 0 [1, 2, 3, 4, 5, 6] [1, 2, 3, 4, 5, 6, 7] .GitHub [] 0)
      Node.initState = Node.initState := by
  obtain ⟨hn, _, _⟩ := validation_order_and_no_partial_effects cfgN cfgP hashNonce
  obtain ⟨hcid, _, _, heff⟩ :=
    hn Node.initState 0 [1, 2, 3, 4, 5, 6] [1, 2, 3, 4, 5, 6, 7] .GitHub [] 0
  have h1 : Node.submit_shadow_item cfgN hashNonce Node.initState 0
      [1, 2, 3, 4, 5, 6] [1, 2, 3, 4, 5, 6, 7] .GitHub [] 0 = .error .CidTooLong :=
    hcid (by decide)
  exact ⟨h1, heff _ h1⟩

/-! ### C9 -/

/-- C9: every command signed by account `a` — submit, delete, grant or revoke,
successful or not — leaves every other account `b`'s ledger, item counter and
consent record untouched, in both variants (the parachain variant has no item
counter of its own; the frame-system nonce it reads is likewise untouched). -/
theorem cross_account_frame (cfgA : Node.Config) (cfgB : Para.Config)
    (hashOf : Nat → Nat → List Nat → Nat) (a b : Nat) (hab : b ≠ a) :
    (∀ (c : Node.Command) (s : Node.State), c.caller = a →
      (Node.apply cfgA hashOf c s).ShadowItems b = s.ShadowItems b ∧
      (Node.apply cfgA hashOf c s).ItemCount b = s.ItemCount b ∧
      (Node.apply cfgA hashOf c s).ConsentRecords b = s.ConsentRecords b) ∧
    (∀ (c : Para.Command) (t : Para.State), c.caller = a →
      (Para.apply cfgB hashOf c t).ShadowItems b = t.ShadowItems b ∧
      (Para.apply cfgB hashOf c t).ConsentRecords b = t.ConsentRecords b ∧
      (Para.apply cfgB hashOf c t).accountNonce b = t.accountNonce b) := by
  constructor
  · intro c s hc
    exact node_apply_frame cfgA hashOf c s (by rw [hc]; exact hab)
  · intro c t hc
    exact para_apply_frame cfgB hashOf c t (by rw [hc]; exact hab)

/-- C9 witness: a grant by account 0 leaves account 1's consent record alone,
in both variants. -/
theorem cross_account_frame_witness :
    (Node.apply cfgN hashNonce (.grant 0 7 none 2) Node.initState).ConsentRecords 1 =
      Node.initState.ConsentRecords 1 ∧
    (Para.apply cfgP hashNonce (.grant 0 [7] none 2) Para.initState).ConsentRecords 1 =
      Para.initState.ConsentRecords 1 := by
  obtain ⟨hn, hp⟩ := cross_account_frame cfgN cfgP hashNonce 0 1 (by decide)
  exact ⟨(hn (.grant 0 7 none 2) Node.initState rfl).2.2,
    (hp (.grant 0 [7] none 2) Para.initState rfl).2.1⟩
